import Mathlib

/-!
Verification development for the jobsub PNFS dropbox cleanup tool.

The Go source (src/main.go, src/unnamed/part_000) is shallowly embedded
below.  Go strings are modelled as Lean `String`s (lists of unicode
scalar values); where Go inspects raw bytes (`len`, `s[0]`) the model
uses the UTF-8 byte size / first scalar, which agree on the ASCII
inputs the accepted grammar admits.  `time.Time` values are modelled
as wall-clock stamps in the fixed local zone at minute resolution
(the two layouts parsed by the program carry no seconds), and the
package-level `now = time.Now()` is passed explicitly as a parameter.
-/

set_option autoImplicit false

namespace DropboxCleanup

/-- Go `error` values produced or propagated by the program:
the three sentinel errors declared in main.go, `*time.ParseError`
values from the date layouts, and `errors.New` values (used for the
aggregate listing error and for arbitrary provider-supplied errors). -/
inductive GoError where
  | errParseLine
  | errMalformedPerms
  | errMissingJobDropboxFiles
  /-- a `*time.ParseError`: the layout, the value being parsed, and the message -/
  | goParseError (layout : String) (value : String) (message : String)
  /-- an `errors.New(msg)` value -/
  | errorsNew (message : String)
  deriving DecidableEq, Repr

/-- A `time.Time` in the fixed local zone, at minute resolution
(the program's layouts never read seconds). -/
structure GoTime where
  year : Int
  month : Nat
  day : Nat
  hour : Nat
  minute : Nat
  deriving DecidableEq, Repr

/-- Go `isLeap(year)`: divisible by 4, and not by 100 unless by 400. -/
def isLeap (y : Int) : Bool :=
  Int.emod y 4 = 0 && (Int.emod y 100 ≠ 0 || Int.emod y 400 = 0)

/-- Go `daysIn(m, year)`: days in a month of the proleptic Gregorian calendar. -/
def daysInMonth (year : Int) (m : Nat) : Nat :=
  match m with
  | 2 => if isLeap year then 29 else 28
  | 4 => 30
  | 6 => 30
  | 9 => 30
  | 11 => 30
  | _ => 31

/-- Day-overflow normalization performed by Go's `time.Date`: days past
the end of a month roll into the following months.  `fuel` bounds the
number of rollover steps; callers pass `d + 1`, which suffices because
each step removes at least 28 days. -/
def normDate : Nat → Int → Nat → Nat → Int × Nat × Nat
  | 0, y, m, d => (y, m, d)
  | fuel + 1, y, m, d =>
    if d ≤ daysInMonth y m then (y, m, d)
    else if 12 ≤ m then normDate fuel (y + 1) 1 (d - 31)
    else normDate fuel y (m + 1) (d - daysInMonth y m)

/-- Go `t.AddDate(years, 0, 0)`: rebuild the date with the year shifted,
normalizing day overflow (Feb 29 of a leap year lands on Mar 1 of a
non-leap target year). -/
def addDateYears (t : GoTime) (years : Int) : GoTime :=
  let r := normDate (t.day + 1) (t.year + years) t.month t.day
  ⟨r.1, r.2.1, r.2.2, t.hour, t.minute⟩

/-- Days contributed by all (March-shifted) years before year `t`:
365 per year plus one per leap year (divisions are Euclidean, which for
the positive divisors here is floor division). -/
def civYearDays (t : Int) : Int :=
  365 * t + t / 4 - t / 100 + t / 400

/-- Day-of-(March-shifted-)year for the first day of month `m`. -/
def monthDoy (m : Nat) : Int :=
  (153 * (if m ≤ 2 then (m : Int) + 9 else (m : Int) - 3) + 2) / 5

/-- Proleptic Gregorian day number of year/month/day, relative to 1970-01-01
(the standard civil-from-days computation; Go's `absDate` arithmetic differs
from it only by a constant epoch shift, which cancels in comparisons
and subtractions). -/
def daysFromCivil (y : Int) (m d : Nat) : Int :=
  civYearDays (if m ≤ 2 then y - 1 else y) + monthDoy m + (d : Int) - 1 - 719468

/-- Absolute minute count of a `GoTime`; `After` and `Sub` compare these. -/
def timeKey (t : GoTime) : Int :=
  daysFromCivil t.year t.month t.day * 1440 + (t.hour : Int) * 60 + (t.minute : Int)

/-- Go `t.After(u)`: strictly later instant. -/
def goAfter (t u : GoTime) : Bool :=
  timeKey u < timeKey t

/-- Go `t.Sub(u)` in nanoseconds (both stamps are whole minutes). -/
def goSub (t u : GoTime) : Int :=
  (timeKey t - timeKey u) * 60000000000

/-- main.go: `recentDuration = time.Duration(30 * time.Hour * 24)` (nanoseconds). -/
def recentDuration : Int := 30 * (60 * 60 * 1000000000) * 24

/-- main.go: `dateWithTimeNoYearLayout = "Jan  2 15:04"`. -/
def dateWithTimeNoYearLayout : String := "Jan  2 15:04"

/-- main.go: `dateWithYearLayout = "Jan 2 2006"`. -/
def dateWithYearLayout : String := "Jan 2 2006"

/-- A directory file listing entry (struct `FileEntry`). -/
structure FileEntry where
  filename : String
  created : GoTime
  isDirectory : Bool
  deriving DecidableEq, Repr

/-! ## Go `time.ParseInLocation` for the two layouts

`time.Parse` processes the layout chunk by chunk.  For the layouts
`"Jan  2 15:04"` and `"Jan 2 2006"` the chunks are: a short month name
(matched case-insensitively as a 3-character prefix), literal runs of
spaces (a run of layout spaces requires at least one space in the value
and then consumes all leading spaces), 1-2 digit numbers (`getnum` with
`fixed = false`), a fixed 2-digit minute, a literal colon, and a fixed
4-digit year.  After the chunks, leftover value is an "extra text"
error, out-of-range hour/minute are range errors, and finally the day
is checked against `daysIn(month, year)` (year 0, a leap year, for the
no-year layout). -/

/-- `'0' ≤ c ≤ '9'`. -/
def isDigitChar (c : Char) : Bool :=
  48 ≤ c.toNat && c.toNat ≤ 57

/-- Go's case-insensitive byte match used by month-name `lookup`:
equal, or both fold (via `| 0x20`) to the same lowercase letter. -/
def goCharMatch (c1 c2 : Char) : Bool :=
  c1 = c2 ||
    (c1.toNat ||| 32 = c2.toNat ||| 32 && 97 ≤ c1.toNat ||| 32 && c1.toNat ||| 32 ≤ 122)

/-- Match one 3-letter month name as a prefix of the value. -/
def monthMatch3 (a b c : Char) (s : List Char) : Option (List Char) :=
  match s with
  | x :: y :: z :: rest =>
    if goCharMatch x a && goCharMatch y b && goCharMatch z c then some rest else none
  | _ => none

/-- Go `lookup(shortMonthNames, value)`: the first short month name that
is a case-insensitive prefix of the value, with the rest of the value. -/
def lookupShortMonth (s : List Char) : Option (Nat × List Char) :=
  (monthMatch3 'J' 'a' 'n' s).map (fun r => (1, r)) <|>
  (monthMatch3 'F' 'e' 'b' s).map (fun r => (2, r)) <|>
  (monthMatch3 'M' 'a' 'r' s).map (fun r => (3, r)) <|>
  (monthMatch3 'A' 'p' 'r' s).map (fun r => (4, r)) <|>
  (monthMatch3 'M' 'a' 'y' s).map (fun r => (5, r)) <|>
  (monthMatch3 'J' 'u' 'n' s).map (fun r => (6, r)) <|>
  (monthMatch3 'J' 'u' 'l' s).map (fun r => (7, r)) <|>
  (monthMatch3 'A' 'u' 'g' s).map (fun r => (8, r)) <|>
  (monthMatch3 'S' 'e' 'p' s).map (fun r => (9, r)) <|>
  (monthMatch3 'O' 'c' 't' s).map (fun r => (10, r)) <|>
  (monthMatch3 'N' 'o' 'v' s).map (fun r => (11, r)) <|>
  (monthMatch3 'D' 'e' 'c' s).map (fun r => (12, r))

/-- Go's `skip` on a layout run of spaces: the value must start with a
space (0x20 exactly), then all leading spaces are consumed. -/
def expectGoSpace (s : List Char) : Option (List Char) :=
  match s with
  | ' ' :: rest => some (rest.dropWhile (fun c => c = ' '))
  | _ => none

/-- Go `getnum(value, fixed := false)`: one or two digits. -/
def getnumFlex (s : List Char) : Option (Nat × List Char) :=
  match s with
  | [] => none
  | [c1] => if isDigitChar c1 then some (c1.toNat - 48, []) else none
  | c1 :: c2 :: rest =>
    if isDigitChar c1 then
      if isDigitChar c2 then some ((c1.toNat - 48) * 10 + (c2.toNat - 48), rest)
      else some (c1.toNat - 48, c2 :: rest)
    else none

/-- Go `getnum(value, fixed := true)` for a 2-digit field. -/
def getnumFixed2 (s : List Char) : Option (Nat × List Char) :=
  match s with
  | c1 :: c2 :: rest =>
    if isDigitChar c1 && isDigitChar c2 then
      some ((c1.toNat - 48) * 10 + (c2.toNat - 48), rest)
    else none
  | _ => none

/-- Go `stdLongYear`: exactly four digits taken from the front. -/
def getLongYear (s : List Char) : Option (Nat × List Char) :=
  match s with
  | a :: b :: c :: d :: rest =>
    if isDigitChar a && isDigitChar b && isDigitChar c && isDigitChar d then
      some ((((a.toNat - 48) * 10 + (b.toNat - 48)) * 10 + (c.toNat - 48)) * 10
              + (d.toNat - 48), rest)
    else none
  | _ => none

/-- `time.ParseInLocation(dateWithTimeNoYearLayout, s, time.Local)`:
layout `"Jan  2 15:04"`.  On success the year is 0. -/
def parseInLocationNoYear (s : String) : Except GoError GoTime :=
  match lookupShortMonth s.data with
  | none => .error (.goParseError dateWithTimeNoYearLayout s "cannot parse month")
  | some (month, v1) =>
  match expectGoSpace v1 with
  | none => .error (.goParseError dateWithTimeNoYearLayout s "cannot parse literal space")
  | some v2 =>
  match getnumFlex v2 with
  | none => .error (.goParseError dateWithTimeNoYearLayout s "cannot parse day")
  | some (day, v3) =>
  match expectGoSpace v3 with
  | none => .error (.goParseError dateWithTimeNoYearLayout s "cannot parse literal space")
  | some v4 =>
  match getnumFlex v4 with
  | none => .error (.goParseError dateWithTimeNoYearLayout s "cannot parse hour")
  | some (hour, v5) =>
  match v5 with
  | ':' :: v6 =>
    match getnumFixed2 v6 with
    | none => .error (.goParseError dateWithTimeNoYearLayout s "cannot parse minute")
    | some (minute, v7) =>
      match v7 with
      | _ :: _ => .error (.goParseError dateWithTimeNoYearLayout s "extra text")
      | [] =>
        if 60 ≤ minute then
          .error (.goParseError dateWithTimeNoYearLayout s "minute out of range")
        else if 24 ≤ hour then
          .error (.goParseError dateWithTimeNoYearLayout s "hour out of range")
        else if day < 1 ∨ daysInMonth 0 month < day then
          .error (.goParseError dateWithTimeNoYearLayout s "day out of range")
        else .ok ⟨0, month, day, hour, minute⟩
  | _ => .error (.goParseError dateWithTimeNoYearLayout s "cannot parse literal colon")

/-- `time.ParseInLocation(dateWithYearLayout, s, time.Local)`:
layout `"Jan 2 2006"`. -/
def parseInLocationWithYear (s : String) : Except GoError GoTime :=
  match lookupShortMonth s.data with
  | none => .error (.goParseError dateWithYearLayout s "cannot parse month")
  | some (month, v1) =>
  match expectGoSpace v1 with
  | none => .error (.goParseError dateWithYearLayout s "cannot parse literal space")
  | some v2 =>
  match getnumFlex v2 with
  | none => .error (.goParseError dateWithYearLayout s "cannot parse day")
  | some (day, v3) =>
  match expectGoSpace v3 with
  | none => .error (.goParseError dateWithYearLayout s "cannot parse literal space")
  | some v4 =>
  match getLongYear v4 with
  | none => .error (.goParseError dateWithYearLayout s "cannot parse year")
  | some (year, v5) =>
    match v5 with
    | _ :: _ => .error (.goParseError dateWithYearLayout s "extra text")
    | [] =>
      if day < 1 ∨ daysInMonth (year : Int) month < day then
        .error (.goParseError dateWithYearLayout s "day out of range")
      else .ok ⟨(year : Int), month, day, 0, 0⟩

/-- main.go `parseDateStampToTime`: try the no-year layout; on success
add `now.Year()` via `AddDate` and roll back one year if the result is
strictly after `now`.  Otherwise try the with-year layout and return its
result verbatim; if that also fails, return its error unwrapped. -/
def parseDateStampToTime (now : GoTime) (dateString : String) : Except GoError GoTime :=
  match parseInLocationNoYear dateString with
  | .ok rawDateStamp =>
    let yearDateStamp := addDateYears rawDateStamp now.year
    if goAfter yearDateStamp now then .ok (addDateYears yearDateStamp (-1))
    else .ok yearDateStamp
  | .error _ =>
    match parseInLocationWithYear dateString with
    | .ok rawDateStamp => .ok rawDateStamp
    | .error e => .error e

/-- main.go `fileIsRecent`: `now.Sub(f.created) < recentDuration`. -/
def fileIsRecent (now : GoTime) (f : FileEntry) : Bool :=
  goSub now f.created < recentDuration

/-! ## The listing-line regular expression

main.go:
`lineRegex = regexp.MustCompile(`((?:\w|-)+)\s+(\d+)\s+(\d+)\s+(\d+)\s+(\d+)\s+(\w+\s+\d+\s+(?:(?:\d+:\d+)|\d+))\s+(.+)`)`
and `FindStringSubmatch`, i.e. the leftmost match under Go's
leftmost-first (Perl-style) semantics, unanchored at both ends.

Every quantified atom in this pattern is a single character class
followed by a requirement from a disjoint class, so a greedy run can
never be profitably shortened: `(\w|-)+`, each `(\d+)` and each `\s+`
(except the last) commit to the maximal run.  The two places where the
backtracking search genuinely branches are the timestamp alternation
`(?:\d+:\d+)|\d+` (first alternative preferred) and the final
`\s+(.+)` boundary, where `.` (any character except newline) overlaps
with `\s`, so when nothing follows the spaces the engine gives back
trailing space characters to `.+` one at a time.  The matcher below
implements exactly that search order; the outer loop over start
positions supplies the leftmost rule. -/

/-- Go regexp `\w`: `[0-9A-Za-z_]`. -/
def isWordChar (c : Char) : Bool :=
  (65 ≤ c.toNat && c.toNat ≤ 90) || (97 ≤ c.toNat && c.toNat ≤ 122) ||
    (48 ≤ c.toNat && c.toNat ≤ 57) || c.toNat = 95

/-- The class `(?:\w|-)` of the permission group. -/
def isWordDash (c : Char) : Bool :=
  isWordChar c || c.toNat = 45

/-- Go regexp `\s`: `[\t\n\f\r ]`. -/
def isRegexSpace (c : Char) : Bool :=
  c.toNat = 32 || c.toNat = 9 || c.toNat = 10 || c.toNat = 12 || c.toNat = 13

/-- Backtracking of the final `\s+(.+)` when the match ran out of input:
give back trailing characters of the space run to `.+`, longest `\s+`
first.  `k + 1` is the candidate length of `\s+`; `.` must not match a
newline. -/
def pickName (sp : List Char) : Nat → Option (List Char)
  | 0 => none
  | k + 1 =>
    match sp.drop (k + 1) with
    | [] => pickName sp k
    | c :: cs =>
      if c ≠ '\n' then some ((c :: cs).takeWhile (fun x => x ≠ '\n'))
      else pickName sp k

/-- A committed greedy `C+` atom: the maximal non-empty run of class
`p`, with the remainder.  (Each quantified atom of this pattern is
followed by a requirement from a disjoint class, so the backtracking
engine can never profitably shorten such a run.) -/
def spanReq (p : Char → Bool) (s : List Char) : Option (List Char × List Char) :=
  match s.takeWhile p with
  | [] => none
  | c :: cs => some (c :: cs, s.dropWhile p)

/-- The trailing `\s+(.+)` of the pattern: returns the capture of `(.+)`. -/
def tailNameMatch (s : List Char) : Option (List Char) :=
  match spanReq isRegexSpace s with
  | none => none
  | some (sp, r) =>
    match r with
    | [] => pickName sp (sp.length - 1)
    | c :: cs => some ((c :: cs).takeWhile (fun x => x ≠ '\n'))

/-- First alternative `\d+:\d+` of the timestamp's last field. -/
def timeOfDayAlt (s : List Char) : Option (List Char × List Char) :=
  match spanReq isDigitChar s with
  | none => none
  | some (hh, v1) =>
  match v1 with
  | [] => none
  | c :: v2 =>
    if c = ':' then
      match spanReq isDigitChar v2 with
      | none => none
      | some (mm, v3) => some (hh ++ ':' :: mm, v3)
    else none

/-- Second alternative `\d+` of the timestamp's last field. -/
def yearAlt (s : List Char) : Option (List Char × List Char) :=
  match spanReq isDigitChar s with
  | none => none
  | some (yr, v1) => some (yr, v1)

/-- The second-alternative path of group 6 followed by `\s+(.+)`:
a `\d+` timestamp tail, then the name. -/
def timeAndNameAlt2 (mon spA day spB u4 : List Char) : Option (List Char × List Char) :=
  match yearAlt u4 with
  | none => none
  | some (t2, rest2) =>
    match tailNameMatch rest2 with
    | none => none
    | some name => some (mon ++ spA ++ day ++ spB ++ t2, name)

/-- Group 6 `(\w+\s+\d+\s+(?:(?:\d+:\d+)|\d+))` followed by `\s+(.+)`:
returns the captures of group 6 (the timestamp) and group 7 (the name).
If the first timestamp alternative matches but the trailing `\s+(.+)`
then fails, the engine backtracks into the second alternative. -/
def timeAndNameMatch (s : List Char) : Option (List Char × List Char) :=
  match spanReq isWordChar s with
  | none => none
  | some (mon, u1) =>
  match spanReq isRegexSpace u1 with
  | none => none
  | some (spA, u2) =>
  match spanReq isDigitChar u2 with
  | none => none
  | some (day, u3) =>
  match spanReq isRegexSpace u3 with
  | none => none
  | some (spB, u4) =>
  match timeOfDayAlt u4 with
  | some (t1, rest1) =>
    (match tailNameMatch rest1 with
     | some name => some (mon ++ spA ++ day ++ spB ++ t1, name)
     | none => timeAndNameAlt2 mon spA day spB u4)
  | none => timeAndNameAlt2 mon spA day spB u4

/-- One attempt to match the whole pattern at the current position:
returns the captures of groups 1 (permissions), 6 (timestamp) and
7 (name); the four integer groups are validated but unused. -/
def lineMatchAt (s : List Char) : Option (List Char × List Char × List Char) :=
  match spanReq isWordDash s with
  | none => none
  | some (perms, r1) =>
  match spanReq isRegexSpace r1 with
  | none => none
  | some (_, r2) =>
  match spanReq isDigitChar r2 with
  | none => none
  | some (_, r3) =>
  match spanReq isRegexSpace r3 with
  | none => none
  | some (_, r4) =>
  match spanReq isDigitChar r4 with
  | none => none
  | some (_, r5) =>
  match spanReq isRegexSpace r5 with
  | none => none
  | some (_, r6) =>
  match spanReq isDigitChar r6 with
  | none => none
  | some (_, r7) =>
  match spanReq isRegexSpace r7 with
  | none => none
  | some (_, r8) =>
  match spanReq isDigitChar r8 with
  | none => none
  | some (_, r9) =>
  match spanReq isRegexSpace r9 with
  | none => none
  | some (_, r10) =>
  match timeAndNameMatch r10 with
  | none => none
  | some (ts, name) => some (perms, ts, name)

/-- `lineRegex.FindStringSubmatch`: try each start position from the
left; the first position admitting a match wins. -/
def lineRegexFind : List Char → Option (List Char × List Char × List Char)
  | [] => none
  | c :: rest =>
    match lineMatchAt (c :: rest) with
    | some r => some r
    | none => lineRegexFind rest

/-- main.go `parsePermsToDirectoryFlag`: requires a 10-byte string whose
first byte is `d` (directory) or `-` (plain file); anything else is
`ErrMalformedPerms`.  Go's `len` counts bytes and `perms[0]` is the
first byte; a non-ASCII first scalar starts with a byte ≥ 0xC2, which
is neither `d` nor `-`, so comparing the first scalar is equivalent. -/
def parsePermsToDirectoryFlag (perms : String) : Except GoError Bool :=
  if perms.utf8ByteSize ≠ 10 then .error .errMalformedPerms
  else
    match perms.data with
    | [] => .error .errMalformedPerms
    | c :: _ =>
      if c = 'd' then .ok true
      else if c = '-' then .ok false
      else .error .errMalformedPerms

/-- main.go `scanDropboxLineToFileEntry`: match the line regex, then
parse the permission and timestamp captures; every failure is collapsed
to `ErrParseLine` and no partial entry escapes. -/
def scanDropboxLineToFileEntry (now : GoTime) (line : String) : Except GoError FileEntry :=
  match lineRegexFind line.data with
  | none => .error .errParseLine
  | some (perms, ts, name) =>
    match parsePermsToDirectoryFlag (String.mk perms) with
    | .error _ => .error .errParseLine
    | .ok isDirectory =>
      match parseDateStampToTime now (String.mk ts) with
      | .error _ => .error .errParseLine
      | .ok created => .ok ⟨String.mk name, created, isDirectory⟩

/-! ## The two collectors -/

/-- A raw per-entry listing blob (Go `[]byte`). -/
abbrev ListingBlob := List Nat

/-- The `FileAccessor` interface: a pluggable listing provider. -/
structure FileAccessor where
  getFilesList : String → Except GoError (List ListingBlob)
  fileListingToFileEntry : ListingBlob → Except GoError FileEntry

/-- Message of the aggregate error in `GetDropboxFiles`. -/
def noEntriesMsg : String :=
  "there was an error processing the file listings into file entries.  No file entries were generated"

/-- Body of the collection loop in `GetDropboxFiles`: a failing
conversion leaves the accumulator unchanged, a successful one appends. -/
def collectEntriesStep (f : FileAccessor) (acc : List FileEntry)
    (listing : ListingBlob) : List FileEntry :=
  match f.fileListingToFileEntry listing with
  | .error _ => acc
  | .ok entry => acc ++ [entry]

/-- main.go `GetDropboxFiles`: a fetch failure is fatal; per-blob
conversion failures are skipped; a non-empty listing producing no
entries at all is escalated to an aggregate error. -/
def GetDropboxFiles (f : FileAccessor) (source : String) : Except GoError (List FileEntry) :=
  match f.getFilesList source with
  | .error e => .error e
  | .ok fileListings =>
    let fileEntries := fileListings.foldl (collectEntriesStep f) []
    if fileListings.length ≠ 0 ∧ fileEntries.length = 0 then
      .error (.errorsNew noEntriesMsg)
    else .ok fileEntries

/-- A scheduler job record: attribute name to raw value (Go
`map[string][]byte`, handed to the extractor through `bytes.NewReader`
wrappers whose contents are read back verbatim). -/
abbrev JobRecord := List (String × String)

/-- Go `unicode.IsSpace` (the White_Space property). -/
def goIsSpace (c : Char) : Bool :=
  c.toNat = 0x20 || (0x9 ≤ c.toNat && c.toNat ≤ 0xD) || c.toNat = 0x85 ||
    c.toNat = 0xA0 || c.toNat = 0x1680 || (0x2000 ≤ c.toNat && c.toNat ≤ 0x200A) ||
    c.toNat = 0x2028 || c.toNat = 0x2029 || c.toNat = 0x202F || c.toNat = 0x205F ||
    c.toNat = 0x3000

/-- Go `strings.TrimSpace`. -/
def goTrimSpace (s : String) : String :=
  String.mk (((s.data.dropWhile goIsSpace).reverse.dropWhile goIsSpace).reverse)

/-- Go `strings.Split(s, sep)` for a single-character separator:
empty segments from consecutive or edge separators are kept, and the
empty string yields one empty segment. -/
def splitOnChar (sep : Char) : List Char → List (List Char)
  | [] => [[]]
  | c :: cs =>
    if c = sep then [] :: splitOnChar sep cs
    else
      match splitOnChar sep cs with
      | [] => [[c]]
      | seg :: rest => (c :: seg) :: rest

/-- The fixed attribute read by the extractor. -/
def pnfsInputFilesAttr : String := "PNFS_INPUT_FILES"

/-- main.go `(*CondorSchedd).getDropboxFilesFromJob`: look up
`PNFS_INPUT_FILES`; missing means `ErrMissingJobDropboxFiles`;
otherwise read the whole value, split it on commas and trim each
segment (empty segments are kept). -/
def getDropboxFilesFromJob (j : JobRecord) : Except GoError (List String) :=
  match j.lookup pnfsInputFilesAttr with
  | none => .error .errMissingJobDropboxFiles
  | some val =>
    .ok (((splitOnChar ',' val.data).map String.mk).map goTrimSpace)

/-- The `JobLister` interface: a pluggable job provider. -/
structure JobLister where
  queryJobsList : List String → List String → Except GoError (List JobRecord)
  getDropboxFilesFromJob : JobRecord → Except GoError (List String)

/-- Body of the collection loop in `GetActiveFiles`: a failing
extraction leaves the accumulator unchanged, a successful one appends
that job's files. -/
def collectFilesStep (j : JobLister) (acc : List String) (job : JobRecord) : List String :=
  match j.getDropboxFilesFromJob job with
  | .error _ => acc
  | .ok files => acc ++ files

/-- main.go `GetActiveFiles`: a query failure is fatal; per-job
extraction failures are skipped; the surviving file lists are flattened
in order, and total extraction failure simply yields the empty list. -/
def GetActiveFiles (j : JobLister) (attributes constraints : List String) :
    Except GoError (List String) :=
  match j.queryJobsList attributes constraints with
  | .error e => .error e
  | .ok jobs => .ok (jobs.foldl (collectFilesStep j) [])

/-! ## The claim's line shape, written from the spec's words

The specification describes the accepted line shape as: permission
string, then **three** unsigned integer fields, then a timestamp that
is either `Mon D HH:MM` or `Mon D YYYY`, then the remainder of the
line as the name.  The following predicates are a direct rendering of
those words (not of the code), used to compare the claim against the
scanner. -/

/-- Every character of the list satisfies the class. -/
def allChars (p : Char → Bool) (l : List Char) : Prop :=
  ∀ c ∈ l, p c = true

instance (p : Char → Bool) (l : List Char) : Decidable (allChars p l) :=
  inferInstanceAs (Decidable (∀ c ∈ l, p c = true))

/-- A non-empty whitespace separator. -/
def specFieldSep (sp : List Char) : Prop :=
  sp ≠ [] ∧ allChars isRegexSpace sp

instance (sp : List Char) : Decidable (specFieldSep sp) :=
  inferInstanceAs (Decidable (sp ≠ [] ∧ allChars isRegexSpace sp))

/-- A non-empty unsigned integer field. -/
def specIntField (i : List Char) : Prop :=
  i ≠ [] ∧ allChars isDigitChar i

instance (i : List Char) : Decidable (specIntField i) :=
  inferInstanceAs (Decidable (i ≠ [] ∧ allChars isDigitChar i))

/-- A timestamp of the form `Mon D HH:MM` or `Mon D YYYY` (a word,
whitespace, digits, whitespace, then either `digits:digits` or
digits). -/
def specTimeStampShape (ts : List Char) : Prop :=
  ∃ mon spA day spB last,
    ts = mon ++ spA ++ day ++ spB ++ last ∧
    mon ≠ [] ∧ allChars isWordChar mon ∧
    specFieldSep spA ∧ specIntField day ∧ specFieldSep spB ∧
    ((∃ hh mm, last = hh ++ ':' :: mm ∧ specIntField hh ∧ specIntField mm) ∨
     specIntField last)

/-- The claim's accepted line shape: permission string, THREE integer
fields, timestamp, name — with the permission and timestamp sub-fields
passing their own validation (rendered from the spec's words). -/
def specLineShapeThreeInts (now : GoTime) (line : List Char) : Prop :=
  ∃ perms sp1 i1 sp2 i2 sp3 i3 sp4 ts sp5 name,
    line = perms ++ sp1 ++ i1 ++ sp2 ++ i2 ++ sp3 ++ i3 ++ sp4 ++ ts ++ sp5 ++ name ∧
    perms ≠ [] ∧ allChars isWordDash perms ∧
    specFieldSep sp1 ∧ specIntField i1 ∧
    specFieldSep sp2 ∧ specIntField i2 ∧
    specFieldSep sp3 ∧ specIntField i3 ∧
    specFieldSep sp4 ∧ specTimeStampShape ts ∧ specFieldSep sp5 ∧
    name ≠ [] ∧
    (parsePermsToDirectoryFlag (String.mk perms)).isOk = true ∧
    (parseDateStampToTime now (String.mk ts)).isOk = true

/-! ## Concrete fixtures used by witness theorems -/

/-- A fixed reference instant used by witnesses (any valid time works). -/
def wNow : GoTime := ⟨2022, 9, 30, 12, 0⟩

def fixtureEntry : FileEntry := ⟨"bogus_file.out", ⟨2022, 9, 26, 14, 55⟩, false⟩

def fixtureBlobs : List ListingBlob := [[1], [2], [3]]

/-- Listing provider whose second blob fails to convert. -/
def fixtureAccessor : FileAccessor where
  getFilesList := fun _ => .ok fixtureBlobs
  fileListingToFileEntry := fun l =>
    if l = [2] then .error (.errorsNew "conversion failed") else .ok fixtureEntry

/-- Listing provider whose fetch fails. -/
def fixtureAccessorFetchErr : FileAccessor where
  getFilesList := fun _ => .error (.errorsNew "transport error")
  fileListingToFileEntry := fun _ => .ok fixtureEntry

/-- Listing provider where every blob fails to convert. -/
def fixtureAccessorAllBad : FileAccessor where
  getFilesList := fun _ => .ok fixtureBlobs
  fileListingToFileEntry := fun _ => .error (.errorsNew "conversion failed")

def fixtureJobGood : JobRecord := [(pnfsInputFilesAttr, "/x")]

def fixtureJobBad : JobRecord := []

/-- Job provider with one failing and one succeeding job, using the
program's own extractor. -/
def fixtureLister : JobLister where
  queryJobsList := fun _ _ => .ok [fixtureJobBad, fixtureJobGood]
  getDropboxFilesFromJob := getDropboxFilesFromJob

/-- Job provider whose query fails. -/
def fixtureListerQueryErr : JobLister where
  queryJobsList := fun _ _ => .error (.errorsNew "query error")
  getDropboxFilesFromJob := getDropboxFilesFromJob

/-- Job provider where every job fails extraction. -/
def fixtureListerAllBad : JobLister where
  queryJobsList := fun _ _ => .ok [fixtureJobBad, fixtureJobBad]
  getDropboxFilesFromJob := getDropboxFilesFromJob

/-! ## Supporting lemmas -/

theorem foldl_collectEntriesStep (f : FileAccessor) (ls : List ListingBlob)
    (acc : List FileEntry) :
    ls.foldl (collectEntriesStep f) acc
      = acc ++ ls.filterMap (fun l => (f.fileListingToFileEntry l).toOption) := by
  induction ls generalizing acc with
  | nil => simp
  | cons x xs ih =>
    cases hx : f.fileListingToFileEntry x <;>
      simp [collectEntriesStep, hx, ih, Except.toOption]

theorem foldl_collectFilesStep (j : JobLister) (jobs : List JobRecord)
    (acc : List String) :
    jobs.foldl (collectFilesStep j) acc
      = acc ++ (jobs.filterMap (fun job => (j.getDropboxFilesFromJob job).toOption)).flatten := by
  induction jobs generalizing acc with
  | nil => simp
  | cons x xs ih =>
    cases hx : j.getDropboxFilesFromJob x <;>
      simp [collectFilesStep, hx, ih, Except.toOption]

theorem splitOnChar_ne_nil (sep : Char) (l : List Char) : splitOnChar sep l ≠ [] := by
  induction l with
  | nil => simp [splitOnChar]
  | cons c cs ih =>
    unfold splitOnChar
    split
    · simp
    · cases h : splitOnChar sep cs <;> simp

theorem splitOnChar_length (sep : Char) (l : List Char) :
    (splitOnChar sep l).length = l.count sep + 1 := by
  induction l with
  | nil => simp [splitOnChar]
  | cons c cs ih =>
    unfold splitOnChar
    by_cases hc : c = sep
    · simp [hc, ih, List.count_cons]
    · cases h : splitOnChar sep cs with
      | nil => exact absurd h (splitOnChar_ne_nil sep cs)
      | cons seg rest =>
        rw [h] at ih
        simp only [if_neg hc, h, List.length_cons, List.count_cons]
        simp only [List.length_cons] at ih
        have : (cs.count sep + if c == sep then 1 else 0) = cs.count sep := by
          simp [hc]
        omega

theorem head?_dropWhile_class {α : Type} (p : α → Bool) (l : List α) :
    ∀ c, (l.dropWhile p).head? = some c → p c = false := by
  induction l with
  | nil => simp
  | cons x xs ih =>
    intro c hc
    rw [List.dropWhile_cons] at hc
    by_cases hx : p x = true
    · exact ih c (by simpa [hx] using hc)
    · rw [if_neg hx] at hc
      rw [List.head?_cons, Option.some.injEq] at hc
      subst hc
      simpa using hx

theorem goTrimSpace_noEdge (s : String) :
    (∀ c, (goTrimSpace s).data.head? = some c → goIsSpace c = false) ∧
    (∀ c, (goTrimSpace s).data.getLast? = some c → goIsSpace c = false) := by
  unfold goTrimSpace
  constructor
  · intro c hc
    -- the trimmed list is D.reverse with D = dropWhile over the reversal,
    -- so its head is D's last element, which is the last of the reversal
    -- (D being a suffix), i.e. the head of the front-trimmed list
    rw [List.head?_reverse] at hc
    obtain ⟨pre, hpre⟩ :=
      List.dropWhile_suffix (l := (s.data.dropWhile goIsSpace).reverse) goIsSpace
    have hDne : (s.data.dropWhile goIsSpace).reverse.dropWhile goIsSpace ≠ [] := by
      intro h0
      rw [h0] at hc
      simp at hc
    have h1 := List.getLast?_append_of_ne_nil pre hDne
    rw [hpre, List.getLast?_reverse, hc] at h1
    exact head?_dropWhile_class goIsSpace s.data c h1
  · intro c hc
    rw [List.getLast?_reverse] at hc
    exact head?_dropWhile_class goIsSpace (s.data.dropWhile goIsSpace).reverse c hc

/-! ## Claim theorems -/

/-- C2: `GetDropboxFiles` with any listing provider and location: a
`getFilesList` failure is returned immediately with no entries;
per-entry conversion failures are skipped and the remaining
successfully converted entries are returned with no error; and if the
fetched listing is non-empty but every entry fails to convert, the
operation returns no entries and a non-nil aggregate error. -/
theorem claimC2_getDropboxFiles_policy (f : FileAccessor) (source : String) :
    (∀ e, f.getFilesList source = .error e →
      GetDropboxFiles f source = .error e) ∧
    (∀ ls, f.getFilesList source = .ok ls →
      (∃ l ∈ ls, ((f.fileListingToFileEntry l).toOption).isSome) →
      GetDropboxFiles f source =
        .ok (ls.filterMap (fun l => (f.fileListingToFileEntry l).toOption))) ∧
    (∀ ls, f.getFilesList source = .ok ls → ls ≠ [] →
      (∀ l ∈ ls, (f.fileListingToFileEntry l).toOption = none) →
      GetDropboxFiles f source = .error (.errorsNew noEntriesMsg)) := by
  refine ⟨?_, ?_, ?_⟩
  · intro e he
    unfold GetDropboxFiles
    rw [he]
  · intro ls hls hex
    unfold GetDropboxFiles
    rw [hls]
    simp only [foldl_collectEntriesStep, List.nil_append]
    rw [if_neg]
    intro ⟨hne, hnil⟩
    obtain ⟨l, hl, hsome⟩ := hex
    obtain ⟨a, ha⟩ := Option.isSome_iff_exists.mp hsome
    have : a ∈ ls.filterMap (fun l => (f.fileListingToFileEntry l).toOption) :=
      List.mem_filterMap.mpr ⟨l, hl, ha⟩
    rw [List.length_eq_zero.mp hnil] at this
    simp at this
  · intro ls hls hne hall
    unfold GetDropboxFiles
    rw [hls]
    simp only [foldl_collectEntriesStep, List.nil_append]
    rw [if_pos]
    exact ⟨by simpa using hne, by simp [List.filterMap_eq_nil_iff.mpr hall]⟩

/-- C2 witness: the three policies at concrete providers (three blobs
with the middle one failing; a failing fetch; all conversions failing). -/
theorem claimC2_witness :
    GetDropboxFiles fixtureAccessorFetchErr "loc" = .error (.errorsNew "transport error") ∧
    GetDropboxFiles fixtureAccessor "loc" = .ok [fixtureEntry, fixtureEntry] ∧
    GetDropboxFiles fixtureAccessorAllBad "loc" = .error (.errorsNew noEntriesMsg) := by
  refine ⟨?_, ?_, ?_⟩
  · exact (claimC2_getDropboxFiles_policy fixtureAccessorFetchErr "loc").1
      (.errorsNew "transport error") rfl
  · have h := (claimC2_getDropboxFiles_policy fixtureAccessor "loc").2.1
      fixtureBlobs rfl ⟨[1], by decide, by decide⟩
    rw [h]
    rfl
  · exact (claimC2_getDropboxFiles_policy fixtureAccessorAllBad "loc").2.2
      fixtureBlobs rfl (by decide) (by decide)

/-- C3: `GetActiveFiles` with any job provider: a `queryJobsList`
failure is returned immediately; a per-job extraction failure skips
only that job's files while the flattened files of every successfully
extracted job are still returned with no error; and when extraction
fails for every job the result is an empty collection with no error. -/
theorem claimC3_getActiveFiles_policy (j : JobLister)
    (attributes constraints : List String) :
    (∀ e, j.queryJobsList attributes constraints = .error e →
      GetActiveFiles j attributes constraints = .error e) ∧
    (∀ jobs, j.queryJobsList attributes constraints = .ok jobs →
      GetActiveFiles j attributes constraints =
        .ok ((jobs.filterMap
          (fun job => (j.getDropboxFilesFromJob job).toOption)).flatten)) ∧
    (∀ jobs, j.queryJobsList attributes constraints = .ok jobs →
      (∀ job ∈ jobs, (j.getDropboxFilesFromJob job).toOption = none) →
      GetActiveFiles j attributes constraints = .ok []) := by
  refine ⟨?_, ?_, ?_⟩
  · intro e he
    unfold GetActiveFiles
    rw [he]
  · intro jobs hjobs
    unfold GetActiveFiles
    rw [hjobs]
    simp [foldl_collectFilesStep]
  · intro jobs hjobs hall
    unfold GetActiveFiles
    rw [hjobs]
    simp [foldl_collectFilesStep, List.filterMap_eq_nil_iff.mpr hall]

/-- C3 witness: the three policies at concrete job providers built on
the program's own extractor (one failing and one succeeding job; a
failing query; all jobs failing). -/
theorem claimC3_witness :
    GetActiveFiles fixtureLister [] [] = .ok ["/x"] ∧
    GetActiveFiles fixtureListerQueryErr [] [] = .error (.errorsNew "query error") ∧
    GetActiveFiles fixtureListerAllBad [] [] = .ok [] := by
  refine ⟨?_, ?_, ?_⟩
  · have h := (claimC3_getActiveFiles_policy fixtureLister [] []).2.1
      [fixtureJobBad, fixtureJobGood] rfl
    rw [h]
    rfl
  · exact (claimC3_getActiveFiles_policy fixtureListerQueryErr [] []).1
      (.errorsNew "query error") rfl
  · exact (claimC3_getActiveFiles_policy fixtureListerAllBad [] []).2.2
      [fixtureJobBad, fixtureJobBad] rfl (by decide)

/-- C4: `parsePermsToDirectoryFlag` fails with `ErrMalformedPerms`
exactly when the string's (byte) length is not 10 or its first
character is not `d` or `-`; otherwise `d` means directory (true) and
`-` means plain file (false). -/
theorem claimC4_parsePermsToDirectoryFlag (perms : String) :
    (parsePermsToDirectoryFlag perms = .error .errMalformedPerms ↔
      ¬ (perms.utf8ByteSize = 10 ∧
         (perms.data.head? = some 'd' ∨ perms.data.head? = some '-'))) ∧
    (perms.utf8ByteSize = 10 → perms.data.head? = some 'd' →
      parsePermsToDirectoryFlag perms = .ok true) ∧
    (perms.utf8ByteSize = 10 → perms.data.head? = some '-' →
      parsePermsToDirectoryFlag perms = .ok false) := by
  unfold parsePermsToDirectoryFlag
  by_cases hs : perms.utf8ByteSize = 10
  · rw [if_neg (by simpa using hs)]
    cases hd : perms.data with
    | nil => simp [hs]
    | cons c cs =>
      by_cases hc : c = 'd'
      · subst hc
        simp [hs]
      · by_cases hc2 : c = '-'
        · subst hc2
          simp [hs]
        · simp [hs, hc, hc2]
  · rw [if_pos (by simpa using hs)]
    simp [hs]

/-- C4 witness: the classifier at the two documented permission strings
and at a malformed one. -/
theorem claimC4_witness :
    parsePermsToDirectoryFlag "drwxrwxrwx" = .ok true ∧
    parsePermsToDirectoryFlag "-rwxrwxrwx" = .ok false ∧
    parsePermsToDirectoryFlag "xrwxrwxrwx" = .error .errMalformedPerms := by
  refine ⟨?_, ?_, ?_⟩
  · exact (claimC4_parsePermsToDirectoryFlag "drwxrwxrwx").2.1 (by decide) (by decide)
  · exact (claimC4_parsePermsToDirectoryFlag "-rwxrwxrwx").2.2 (by decide) (by decide)
  · exact (claimC4_parsePermsToDirectoryFlag "xrwxrwxrwx").1.mpr (by decide)

/-- C5: the Active-File Extractor fails with
`ErrMissingJobDropboxFiles` exactly when `PNFS_INPUT_FILES` is absent;
otherwise it returns the value split on commas with surrounding
whitespace trimmed from each segment, the number of segments being the
comma count plus one (empty segments are preserved, not filtered), and
no returned segment keeps any leading or trailing whitespace. -/
theorem claimC5_getDropboxFilesFromJob (j : JobRecord) :
    (j.lookup pnfsInputFilesAttr = none →
      getDropboxFilesFromJob j = .error .errMissingJobDropboxFiles) ∧
    (∀ val, j.lookup pnfsInputFilesAttr = some val →
      getDropboxFilesFromJob j =
        .ok (((splitOnChar ',' val.data).map String.mk).map goTrimSpace) ∧
      (((splitOnChar ',' val.data).map String.mk).map goTrimSpace).length
          = val.data.count ',' + 1 ∧
      ∀ s ∈ ((splitOnChar ',' val.data).map String.mk).map goTrimSpace,
        (∀ c, s.data.head? = some c → goIsSpace c = false) ∧
        (∀ c, s.data.getLast? = some c → goIsSpace c = false)) := by
  constructor
  · intro h
    unfold getDropboxFilesFromJob
    rw [h]
  · intro val h
    refine ⟨?_, ?_, ?_⟩
    · unfold getDropboxFilesFromJob
      rw [h]
    · simp [splitOnChar_length]
    · intro s hs
      simp only [List.map_map, List.mem_map] at hs
      obtain ⟨seg, _, hseg⟩ := hs
      rw [← hseg]
      exact goTrimSpace_noEdge (String.mk seg)

/-- C5 witness: the extractor on a job carrying `"/a,, /b "` (empty
segment kept, edges trimmed) and on a job missing the attribute. -/
theorem claimC5_witness :
    getDropboxFilesFromJob [(pnfsInputFilesAttr, "/a,, /b ")] = .ok ["/a", "", "/b"] ∧
    getDropboxFilesFromJob [("OTHER", "x")] = .error .errMissingJobDropboxFiles := by
  constructor
  · have h := ((claimC5_getDropboxFilesFromJob
      [(pnfsInputFilesAttr, "/a,, /b ")]).2 "/a,, /b " (by decide)).1
    rw [h]
    rfl
  · exact (claimC5_getDropboxFilesFromJob [("OTHER", "x")]).1 (by decide)

/-- C7: the Recency Classifier is a pure total Boolean function that
holds exactly when `now - createdAt` is less than 30 days
(30·24·60 minutes). -/
theorem claimC7_fileIsRecent (now : GoTime) (f : FileEntry) :
    fileIsRecent now f = true ↔ timeKey now - timeKey f.created < 30 * 24 * 60 := by
  simp only [fileIsRecent, goSub, recentDuration, decide_eq_true_eq]
  omega

/-- C1: for every timestamp string parsing in the omitted-year form,
the Date Resolver returns the parsed stamp with the reference year of
`now` added (Go's `AddDate`), except that when that computed instant is
strictly after `now` it returns the instant with one year subtracted. -/
theorem claimC1_dateResolver_noYear (now : GoTime) (s : String) (t : GoTime)
    (h : parseInLocationNoYear s = .ok t) :
    parseDateStampToTime now s =
      .ok (if goAfter (addDateYears t now.year) now
           then addDateYears (addDateYears t now.year) (-1)
           else addDateYears t now.year) := by
  have hred : parseDateStampToTime now s =
      if goAfter (addDateYears t now.year) now
      then .ok (addDateYears (addDateYears t now.year) (-1))
      else .ok (addDateYears t now.year) := by
    unfold parseDateStampToTime
    rw [h]
  rw [hred]
  by_cases hb : goAfter (addDateYears t now.year) now = true <;> simp [hb]

/-- C1 witness: `"Sep 26 14:55"` against a late-September and
an earlier-September reference now (rollback taken in the second). -/
theorem claimC1_witness :
    parseDateStampToTime ⟨2022, 9, 30, 12, 0⟩ "Sep 26 14:55" = .ok ⟨2022, 9, 26, 14, 55⟩ ∧
    parseDateStampToTime ⟨2022, 9, 20, 12, 0⟩ "Sep 26 14:55" = .ok ⟨2021, 9, 26, 14, 55⟩ := by
  constructor
  · rw [claimC1_dateResolver_noYear ⟨2022, 9, 30, 12, 0⟩ "Sep 26 14:55"
      ⟨0, 9, 26, 14, 55⟩ (by rfl)]
    rfl
  · rw [claimC1_dateResolver_noYear ⟨2022, 9, 20, 12, 0⟩ "Sep 26 14:55"
      ⟨0, 9, 26, 14, 55⟩ (by rfl)]
    rfl

/-- C6: for every timestamp string on which the omitted-year form fails
but the with-year form parses, the Date Resolver returns the parsed
instant verbatim, independent of the reference now. -/
theorem claimC6_dateResolver_withYear (now : GoTime) (s : String) (e : GoError)
    (t : GoTime) (h1 : parseInLocationNoYear s = .error e)
    (h2 : parseInLocationWithYear s = .ok t) :
    parseDateStampToTime now s = .ok t := by
  unfold parseDateStampToTime
  rw [h1, h2]

/-- C6 witness: `"Apr 6 2022"` resolves to 2022-04-06T00:00 local at
two different reference nows. -/
theorem claimC6_witness :
    parseDateStampToTime ⟨2022, 9, 30, 12, 0⟩ "Apr 6 2022" = .ok ⟨2022, 4, 6, 0, 0⟩ ∧
    parseDateStampToTime ⟨1999, 1, 1, 0, 0⟩ "Apr 6 2022" = .ok ⟨2022, 4, 6, 0, 0⟩ := by
  constructor
  · exact claimC6_dateResolver_withYear ⟨2022, 9, 30, 12, 0⟩ "Apr 6 2022"
      (.goParseError dateWithTimeNoYearLayout "Apr 6 2022" "cannot parse literal colon")
      ⟨2022, 4, 6, 0, 0⟩ (by rfl) (by rfl)
  · exact claimC6_dateResolver_withYear ⟨1999, 1, 1, 0, 0⟩ "Apr 6 2022"
      (.goParseError dateWithTimeNoYearLayout "Apr 6 2022" "cannot parse literal colon")
      ⟨2022, 4, 6, 0, 0⟩ (by rfl) (by rfl)

/-- C9: when both layouts fail, the Date Resolver fails with the
underlying parse error itself (the second attempt's error value,
propagated unwrapped). -/
theorem claimC9_dateError_propagation (now : GoTime) (s : String)
    (e1 e2 : GoError) (h1 : parseInLocationNoYear s = .error e1)
    (h2 : parseInLocationWithYear s = .error e2) :
    parseDateStampToTime now s = .error e2 := by
  unfold parseDateStampToTime
  rw [h1, h2]

/-- C9 witness: a garbage stamp fails both layouts and the resolver
returns the with-year layout's own error value. -/
theorem claimC9_witness :
    parseDateStampToTime ⟨2022, 9, 30, 12, 0⟩ "garbage" =
      .error (.goParseError dateWithYearLayout "garbage" "cannot parse month") := by
  exact claimC9_dateError_propagation ⟨2022, 9, 30, 12, 0⟩ "garbage"
    (.goParseError dateWithTimeNoYearLayout "garbage" "cannot parse month")
    (.goParseError dateWithYearLayout "garbage" "cannot parse month")
    (by rfl) (by rfl)

/-! ## Calendar facts used for the year-rollback claim -/

theorem daysInMonth_bounds (y : Int) (m : Nat) :
    28 ≤ daysInMonth y m ∧ daysInMonth y m ≤ 31 := by
  unfold daysInMonth
  split <;> first | omega | (split <;> omega)

theorem lookupShortMonth_bounds (s : List Char) (m : Nat) (r : List Char)
    (h : lookupShortMonth s = some (m, r)) : 1 ≤ m ∧ m ≤ 12 := by
  unfold lookupShortMonth at h
  simp only [Option.orElse_eq_some, Option.map_eq_some', Prod.mk.injEq] at h
  rcases h with ⟨a, -, h1, -⟩ | ⟨-, h⟩
  · omega
  rcases h with ⟨a, -, h1, -⟩ | ⟨-, h⟩
  · omega
  rcases h with ⟨a, -, h1, -⟩ | ⟨-, h⟩
  · omega
  rcases h with ⟨a, -, h1, -⟩ | ⟨-, h⟩
  · omega
  rcases h with ⟨a, -, h1, -⟩ | ⟨-, h⟩
  · omega
  rcases h with ⟨a, -, h1, -⟩ | ⟨-, h⟩
  · omega
  rcases h with ⟨a, -, h1, -⟩ | ⟨-, h⟩
  · omega
  rcases h with ⟨a, -, h1, -⟩ | ⟨-, h⟩
  · omega
  rcases h with ⟨a, -, h1, -⟩ | ⟨-, h⟩
  · omega
  rcases h with ⟨a, -, h1, -⟩ | ⟨-, h⟩
  · omega
  rcases h with ⟨a, -, h1, -⟩ | ⟨-, h⟩
  · omega
  obtain ⟨a, -, h1, -⟩ := h
  omega

theorem parseInLocationNoYear_ok (s : String) (t : GoTime)
    (h : parseInLocationNoYear s = .ok t) :
    t.year = 0 ∧ 1 ≤ t.month ∧ t.month ≤ 12 ∧ 1 ≤ t.day ∧
      t.day ≤ daysInMonth 0 t.month ∧ t.hour ≤ 23 ∧ t.minute ≤ 59 := by
  unfold parseInLocationNoYear at h
  split at h
  next => simp at h
  next month v1 hm =>
  split at h
  next => simp at h
  next v2 he1 =>
  split at h
  next => simp at h
  next day v3 hg1 =>
  split at h
  next => simp at h
  next v4 he2 =>
  split at h
  next => simp at h
  next hour v5 hg2 =>
  split at h
  next v6 =>
    split at h
    next => simp at h
    next minute v7 hg3 =>
    split at h
    next c cs => simp at h
    next =>
      split_ifs at h with h60 h24 hday
      injection h with h2
      rw [← h2]
      push_neg at hday
      have hmb := lookupShortMonth_bounds s.data month v1 hm
      refine ⟨rfl, hmb.1, hmb.2, ?_, ?_, ?_, ?_⟩ <;> simp <;> omega
  next hne => simp at h

theorem normDate_keepYear (y : Int) (m d : Nat) (h1 : 1 ≤ m) (h2 : m ≤ 12)
    (h3 : 1 ≤ d) (h4 : d ≤ 31) :
    ∃ m2 d2, normDate (d + 1) y m d = (y, m2, d2) ∧
      1 ≤ m2 ∧ m2 ≤ 12 ∧ 1 ≤ d2 ∧ d2 ≤ daysInMonth y m2 := by
  have hb := daysInMonth_bounds y m
  by_cases hd : d ≤ daysInMonth y m
  · exact ⟨m, d, by simp [normDate, hd], h1, h2, h3, hd⟩
  · by_cases hm : 12 ≤ m
    · have h12 : m = 12 := by omega
      subst h12
      have : daysInMonth y 12 = 31 := rfl
      omega
    · have hb2 := daysInMonth_bounds y (m + 1)
      obtain ⟨d2, rfl⟩ : ∃ d2, d = d2 + 1 := ⟨d - 1, by omega⟩
      refine ⟨m + 1, d2 + 1 - daysInMonth y m, ?_, by omega, by omega, by omega, by omega⟩
      show normDate (d2 + 1 + 1) y m (d2 + 1) = _
      rw [show normDate (d2 + 1 + 1) y m (d2 + 1)
            = normDate (d2 + 1) y (m + 1) (d2 + 1 - daysInMonth y m) by
        simp [normDate, hd, hm]]
      have hstep : d2 + 1 - daysInMonth y m ≤ daysInMonth y (m + 1) := by omega
      obtain ⟨d3, hd3⟩ : ∃ d3, d2 = d3 + 1 := ⟨d2 - 1, by omega⟩
      rw [hd3]
      simp [normDate, show d3 + 1 + 1 - daysInMonth y m ≤ daysInMonth y (m + 1) by omega]

theorem addDateYears_spec (t : GoTime) (k : Int) (h1 : 1 ≤ t.month)
    (h2 : t.month ≤ 12) (h3 : 1 ≤ t.day) (h4 : t.day ≤ 31) :
    (addDateYears t k).year = t.year + k ∧
      1 ≤ (addDateYears t k).month ∧ (addDateYears t k).month ≤ 12 ∧
      1 ≤ (addDateYears t k).day ∧
      (addDateYears t k).day ≤ daysInMonth (t.year + k) (addDateYears t k).month ∧
      (addDateYears t k).hour = t.hour ∧ (addDateYears t k).minute = t.minute := by
  obtain ⟨m2, d2, heq, hm1, hm2, hd1, hd2⟩ :=
    normDate_keepYear (t.year + k) t.month t.day h1 h2 h3 h4
  unfold addDateYears
  rw [heq]
  exact ⟨rfl, hm1, hm2, hd1, hd2, rfl, rfl⟩

theorem daysFromCivil_le_dec31 (y : Int) (m d : Nat) (h1 : 1 ≤ m) (h2 : m ≤ 12)
    (h3 : d ≤ 31) : daysFromCivil y m d ≤ daysFromCivil y 12 31 := by
  have hstep : civYearDays (y - 1) + 365 ≤ civYearDays y := by
    unfold civYearDays; omega
  unfold daysFromCivil
  interval_cases m <;> simp only [monthDoy] <;> norm_num <;> omega

theorem dec31_lt_jan1 (y : Int) :
    daysFromCivil y 12 31 < daysFromCivil (y + 1) 1 1 := by
  unfold daysFromCivil monthDoy
  norm_num
  omega

theorem jan1_mono (a b : Int) (h : a ≤ b) :
    daysFromCivil a 1 1 ≤ daysFromCivil b 1 1 := by
  unfold daysFromCivil monthDoy civYearDays
  norm_num
  omega

theorem jan1_le_daysFromCivil (y : Int) (m d : Nat) (h1 : 1 ≤ m) (h2 : m ≤ 12)
    (h3 : 1 ≤ d) : daysFromCivil y 1 1 ≤ daysFromCivil y m d := by
  have hstep : civYearDays (y - 1) + 365 ≤ civYearDays y := by
    unfold civYearDays; omega
  unfold daysFromCivil
  interval_cases m <;> simp only [monthDoy] <;> norm_num <;> omega

theorem timeKey_lt_of_year_lt (a b : GoTime)
    (ham1 : 1 ≤ a.month) (ham2 : a.month ≤ 12) (_had1 : 1 ≤ a.day) (had2 : a.day ≤ 31)
    (hah : a.hour ≤ 23) (ham : a.minute ≤ 59)
    (hbm1 : 1 ≤ b.month) (hbm2 : b.month ≤ 12) (hbd1 : 1 ≤ b.day)
    (hy : a.year < b.year) : timeKey a < timeKey b := by
  have h1 := daysFromCivil_le_dec31 a.year a.month a.day ham1 ham2 had2
  have h2 := dec31_lt_jan1 a.year
  have h3 := jan1_mono (a.year + 1) b.year (by omega)
  have h4 := jan1_le_daysFromCivil b.year b.month b.day hbm1 hbm2 hbd1
  unfold timeKey
  omega

/-- C10 (implicit): for every timestamp resolved through the
omitted-year form, the returned instant is never strictly after the
reference now (for any calendar-valid now). -/
theorem claimC10_noYear_not_future (now : GoTime) (s : String) (t r : GoTime)
    (hv : 1 ≤ now.month ∧ now.month ≤ 12 ∧ 1 ≤ now.day ∧ now.day ≤ 31 ∧
      now.hour ≤ 23 ∧ now.minute ≤ 59)
    (ht : parseInLocationNoYear s = .ok t)
    (hr : parseDateStampToTime now s = .ok r) :
    goAfter r now = false := by
  obtain ⟨hy0, hm1, hm2, hd1, hd2, hh, hmin⟩ := parseInLocationNoYear_ok s t ht
  have hdim := daysInMonth_bounds 0 t.month
  have hspec1 := addDateYears_spec t now.year hm1 hm2 hd1 (by omega)
  have hred : parseDateStampToTime now s =
      if goAfter (addDateYears t now.year) now
      then .ok (addDateYears (addDateYears t now.year) (-1))
      else .ok (addDateYears t now.year) := by
    unfold parseDateStampToTime
    rw [ht]
  rw [hred] at hr
  by_cases hb : goAfter (addDateYears t now.year) now = true
  · rw [if_pos hb] at hr
    injection hr with hr2
    have hyds : (addDateYears t now.year).year = now.year := by
      rw [hspec1.1, hy0]
      omega
    have hdimY := daysInMonth_bounds (t.year + now.year) (addDateYears t now.year).month
    have hspec2 := addDateYears_spec (addDateYears t now.year) (-1)
      hspec1.2.1 hspec1.2.2.1 hspec1.2.2.2.1 (by omega)
    have hryear : r.year = now.year - 1 := by
      rw [← hr2, hspec2.1, hyds]
      ring
    have hdimR := daysInMonth_bounds ((addDateYears t now.year).year + (-1)) r.month
    have hklt : timeKey r < timeKey now := by
      refine timeKey_lt_of_year_lt r now ?_ ?_ ?_ ?_ ?_ ?_ hv.1 hv.2.1 hv.2.2.1 (by omega)
      · rw [← hr2]; exact hspec2.2.1
      · rw [← hr2]; exact hspec2.2.2.1
      · rw [← hr2]; exact hspec2.2.2.2.1
      · rw [← hr2]
        have := hspec2.2.2.2.2.1
        rw [← hr2] at hdimR
        omega
      · rw [← hr2, hspec2.2.2.2.2.2.1, hspec1.2.2.2.2.2.1]; exact hh
      · rw [← hr2, hspec2.2.2.2.2.2.2, hspec1.2.2.2.2.2.2]; exact hmin
    simp only [goAfter, decide_eq_false_iff_not]
    omega
  · rw [if_neg hb] at hr
    injection hr with hr2
    rw [← hr2]
    simpa using hb

/-- C10 witness: a concrete omitted-year stamp against a concrete valid
now resolves to an instant not after that now. -/
theorem claimC10_witness : goAfter ⟨2022, 9, 26, 14, 55⟩ ⟨2022, 9, 30, 12, 0⟩ = false := by
  exact claimC10_noYear_not_future ⟨2022, 9, 30, 12, 0⟩ "Sep 26 14:55"
    ⟨0, 9, 26, 14, 55⟩ ⟨2022, 9, 26, 14, 55⟩ (by decide) (by rfl) (by rfl)

/-! ## Character-class and span lemmas for the line matcher -/

theorem isRegexSpace_not_wordDash {c : Char} (h : isRegexSpace c = true) :
    isWordDash c = false := by
  revert h
  simp [isRegexSpace, isWordDash, isWordChar]
  omega

theorem isRegexSpace_not_word {c : Char} (h : isRegexSpace c = true) :
    isWordChar c = false := by
  revert h
  simp [isRegexSpace, isWordChar]
  omega

theorem isRegexSpace_not_digit {c : Char} (h : isRegexSpace c = true) :
    isDigitChar c = false := by
  revert h
  simp [isRegexSpace, isDigitChar]
  omega

theorem isDigitChar_not_space {c : Char} (h : isDigitChar c = true) :
    isRegexSpace c = false := by
  revert h
  simp [isRegexSpace, isDigitChar]
  omega

theorem isWordChar_not_space {c : Char} (h : isWordChar c = true) :
    isRegexSpace c = false := by
  revert h
  simp [isRegexSpace, isWordChar]
  omega

theorem span_append_exact {p : Char → Bool} (ys : List Char)
    (h2 : ∀ c, ys.head? = some c → p c = false) :
    ∀ xs, (∀ c ∈ xs, p c = true) →
      ((xs ++ ys).takeWhile p = xs ∧ (xs ++ ys).dropWhile p = ys) := by
  intro xs
  induction xs with
  | nil =>
    intro _
    simp only [List.nil_append]
    cases ys with
    | nil => simp
    | cons c cs =>
      have hc := h2 c rfl
      simp [List.takeWhile_cons, List.dropWhile_cons, hc]
  | cons x xt ih =>
    intro h1
    have hx := h1 x (by simp)
    have iht := ih (fun c hc => h1 c (by simp [hc]))
    simp [List.takeWhile_cons, List.dropWhile_cons, hx, iht.1, iht.2]

theorem spanReq_exact (p : Char → Bool) (xs ys : List Char) (hne : xs ≠ [])
    (h1 : ∀ c ∈ xs, p c = true) (h2 : ∀ c, ys.head? = some c → p c = false) :
    spanReq p (xs ++ ys) = some (xs, ys) := by
  obtain ⟨heq1, heq2⟩ := span_append_exact ys h2 xs h1
  cases xs with
  | nil => exact absurd rfl hne
  | cons x xt =>
    unfold spanReq
    rw [heq1, heq2]

theorem head_class_false_of_all {p q : Char → Bool}
    (imp : ∀ c, p c = true → q c = false) (xs : List Char) (hall : allChars p xs) :
    ∀ c, xs.head? = some c → q c = false := by
  intro c hc
  cases xs with
  | nil => simp at hc
  | cons x xt =>
    simp only [List.head?_cons, Option.some.injEq] at hc
    rw [← hc]
    exact imp x (hall x (by simp))

theorem takeWhile_no_newline (l : List Char) (h : ∀ c ∈ l, c ≠ '\n') :
    l.takeWhile (fun x => x ≠ '\n') = l := by
  induction l with
  | nil => simp
  | cons x xt ih =>
    have hx := h x (by simp)
    have iht := ih (fun c hc => h c (by simp [hc]))
    simp [List.takeWhile_cons, hx, iht]
    exact fun c hc => h c (by simp [hc])

theorem tailNameMatch_exact (sp name : List Char) (hsp : sp ≠ [])
    (hspall : allChars isRegexSpace sp) (hname : name ≠ [])
    (hhead : ∀ c, name.head? = some c → isRegexSpace c = false)
    (hnn : ∀ c ∈ name, c ≠ '\n') :
    tailNameMatch (sp ++ name) = some name := by
  unfold tailNameMatch
  rw [spanReq_exact isRegexSpace sp name hsp hspall hhead]
  cases name with
  | nil => exact absurd rfl hname
  | cons c cs =>
    dsimp only
    rw [takeWhile_no_newline (c :: cs) hnn]

theorem timeOfDayAlt_exact (hh mm rest : List Char) (hhne : hh ≠ [])
    (hhall : allChars isDigitChar hh) (hmne : mm ≠ [])
    (hmall : allChars isDigitChar mm)
    (hrest : ∀ c, rest.head? = some c → isDigitChar c = false) :
    timeOfDayAlt (hh ++ (':' :: (mm ++ rest))) = some (hh ++ ':' :: mm, rest) := by
  unfold timeOfDayAlt
  rw [spanReq_exact isDigitChar hh (':' :: (mm ++ rest)) hhne hhall
    (by intro c hc; simp only [List.head?_cons, Option.some.injEq] at hc; rw [← hc]; decide)]
  dsimp only
  rw [if_pos rfl, spanReq_exact isDigitChar mm rest hmne hmall hrest]

theorem timeOfDayAlt_no_colon (yr rest : List Char) (hne : yr ≠ [])
    (hall : allChars isDigitChar yr)
    (hrest : ∀ c, rest.head? = some c → isDigitChar c = false)
    (hcolon : ∀ c, rest.head? = some c → c ≠ ':') :
    timeOfDayAlt (yr ++ rest) = none := by
  unfold timeOfDayAlt
  rw [spanReq_exact isDigitChar yr rest hne hall hrest]
  cases rest with
  | nil => rfl
  | cons c cs =>
    have hc := hcolon c rfl
    dsimp only
    rw [if_neg hc]

theorem yearAlt_exact (yr rest : List Char) (hne : yr ≠ [])
    (hall : allChars isDigitChar yr)
    (hrest : ∀ c, rest.head? = some c → isDigitChar c = false) :
    yearAlt (yr ++ rest) = some (yr, rest) := by
  unfold yearAlt
  rw [spanReq_exact isDigitChar yr rest hne hall hrest]

theorem head_false_append {p q : Char → Bool} (imp : ∀ c, p c = true → q c = false)
    (xs ys : List Char) (hne : xs ≠ []) (hall : allChars p xs) :
    ∀ c, (xs ++ ys).head? = some c → q c = false := by
  cases xs with
  | nil => exact absurd rfl hne
  | cons x xt =>
    intro c hc
    simp only [List.cons_append, List.head?_cons, Option.some.injEq] at hc
    rw [← hc]
    exact imp x (hall x (by simp))

theorem timeAndNameMatch_exact (mon spA day spB last sp6 name : List Char)
    (hmon : mon ≠ []) (hmonall : allChars isWordChar mon)
    (hspA : specFieldSep spA) (hday : specIntField day) (hspB : specFieldSep spB)
    (hlast : (∃ hh mm, last = hh ++ ':' :: mm ∧ specIntField hh ∧ specIntField mm) ∨
      specIntField last)
    (hsp6 : specFieldSep sp6) (hname : name ≠ [])
    (hnh : ∀ c, name.head? = some c → isRegexSpace c = false)
    (hnn : ∀ c ∈ name, c ≠ '\n') :
    timeAndNameMatch (mon ++ (spA ++ (day ++ (spB ++ (last ++ (sp6 ++ name))))))
      = some (mon ++ spA ++ day ++ spB ++ last, name) := by
  obtain ⟨hspA1, hspA2⟩ := hspA
  obtain ⟨hday1, hday2⟩ := hday
  obtain ⟨hspB1, hspB2⟩ := hspB
  obtain ⟨hsp61, hsp62⟩ := hsp6
  have hsp6head : ∀ c, (sp6 ++ name).head? = some c → isDigitChar c = false :=
    head_false_append (fun c h => isRegexSpace_not_digit h) sp6 name hsp61 hsp62
  have hsp6colon : ∀ c, (sp6 ++ name).head? = some c → c ≠ ':' := by
    intro c hc
    cases sp6 with
    | nil => exact absurd rfl hsp61
    | cons x xt =>
      simp only [List.cons_append, List.head?_cons, Option.some.injEq] at hc
      rw [← hc]
      have hx := hsp62 x (by simp)
      intro h2
      rw [h2] at hx
      revert hx
      decide
  have hlasthead : ∀ c, (last ++ (sp6 ++ name)).head? = some c →
      isRegexSpace c = false := by
    rcases hlast with ⟨hh, mm, hl, ⟨hh1, hh2⟩, -⟩ | ⟨hl1, hl2⟩
    · subst hl
      intro c hc
      rw [List.append_assoc] at hc
      exact head_false_append (fun c h => isDigitChar_not_space h) hh
        ((':' :: mm) ++ (sp6 ++ name)) hh1 hh2 c hc
    · exact head_false_append (fun c h => isDigitChar_not_space h) last
        (sp6 ++ name) hl1 hl2
  unfold timeAndNameMatch
  rw [spanReq_exact isWordChar mon (spA ++ (day ++ (spB ++ (last ++ (sp6 ++ name)))))
    hmon hmonall
    (head_false_append (fun c h => isRegexSpace_not_word h) spA
      (day ++ (spB ++ (last ++ (sp6 ++ name)))) hspA1 hspA2)]
  dsimp only
  rw [spanReq_exact isRegexSpace spA (day ++ (spB ++ (last ++ (sp6 ++ name))))
    hspA1 hspA2
    (head_false_append (fun c h => isDigitChar_not_space h) day
      (spB ++ (last ++ (sp6 ++ name))) hday1 hday2)]
  dsimp only
  rw [spanReq_exact isDigitChar day (spB ++ (last ++ (sp6 ++ name))) hday1 hday2
    (head_false_append (fun c h => isRegexSpace_not_digit h) spB
      (last ++ (sp6 ++ name)) hspB1 hspB2)]
  dsimp only
  rw [spanReq_exact isRegexSpace spB (last ++ (sp6 ++ name)) hspB1 hspB2 hlasthead]
  dsimp only
  rcases hlast with ⟨hh, mm, hl, hhspec, hmspec⟩ | ⟨hl1, hl2⟩
  · subst hl
    have heq : (hh ++ ':' :: mm) ++ (sp6 ++ name)
        = hh ++ (':' :: (mm ++ (sp6 ++ name))) := by
      simp [List.append_assoc]
    rw [heq, timeOfDayAlt_exact hh mm (sp6 ++ name) hhspec.1 hhspec.2
      hmspec.1 hmspec.2 hsp6head]
    dsimp only
    rw [tailNameMatch_exact sp6 name hsp61 hsp62 hname hnh hnn]
  · rw [timeOfDayAlt_no_colon last (sp6 ++ name) hl1 hl2 hsp6head hsp6colon]
    dsimp only
    unfold timeAndNameAlt2
    rw [yearAlt_exact last (sp6 ++ name) hl1 hl2 hsp6head]
    dsimp only
    rw [tailNameMatch_exact sp6 name hsp61 hsp62 hname hnh hnn]

theorem lineMatchAt_exact (perms sp1 i1 sp2 i2 sp3 i3 sp4 i4 sp5 rest ts name : List Char)
    (hperm : perms ≠ []) (hpall : allChars isWordDash perms)
    (h1 : specFieldSep sp1) (hi1 : specIntField i1)
    (h2 : specFieldSep sp2) (hi2 : specIntField i2)
    (h3 : specFieldSep sp3) (hi3 : specIntField i3)
    (h4 : specFieldSep sp4) (hi4 : specIntField i4)
    (h5 : specFieldSep sp5)
    (hrest : ∀ c, rest.head? = some c → isRegexSpace c = false)
    (hmatch : timeAndNameMatch rest = some (ts, name)) :
    lineMatchAt (perms ++ (sp1 ++ (i1 ++ (sp2 ++ (i2 ++ (sp3 ++ (i3 ++
        (sp4 ++ (i4 ++ (sp5 ++ rest)))))))))) = some (perms, ts, name) := by
  obtain ⟨h11, h12⟩ := h1
  obtain ⟨hi11, hi12⟩ := hi1
  obtain ⟨h21, h22⟩ := h2
  obtain ⟨hi21, hi22⟩ := hi2
  obtain ⟨h31, h32⟩ := h3
  obtain ⟨hi31, hi32⟩ := hi3
  obtain ⟨h41, h42⟩ := h4
  obtain ⟨hi41, hi42⟩ := hi4
  obtain ⟨h51, h52⟩ := h5
  unfold lineMatchAt
  rw [spanReq_exact isWordDash perms _ hperm hpall
    (head_false_append (fun c h => isRegexSpace_not_wordDash h) sp1 _ h11 h12)]
  dsimp only
  rw [spanReq_exact isRegexSpace sp1 _ h11 h12
    (head_false_append (fun c h => isDigitChar_not_space h) i1 _ hi11 hi12)]
  dsimp only
  rw [spanReq_exact isDigitChar i1 _ hi11 hi12
    (head_false_append (fun c h => isRegexSpace_not_digit h) sp2 _ h21 h22)]
  dsimp only
  rw [spanReq_exact isRegexSpace sp2 _ h21 h22
    (head_false_append (fun c h => isDigitChar_not_space h) i2 _ hi21 hi22)]
  dsimp only
  rw [spanReq_exact isDigitChar i2 _ hi21 hi22
    (head_false_append (fun c h => isRegexSpace_not_digit h) sp3 _ h31 h32)]
  dsimp only
  rw [spanReq_exact isRegexSpace sp3 _ h31 h32
    (head_false_append (fun c h => isDigitChar_not_space h) i3 _ hi31 hi32)]
  dsimp only
  rw [spanReq_exact isDigitChar i3 _ hi31 hi32
    (head_false_append (fun c h => isRegexSpace_not_digit h) sp4 _ h41 h42)]
  dsimp only
  rw [spanReq_exact isRegexSpace sp4 _ h41 h42
    (head_false_append (fun c h => isDigitChar_not_space h) i4 _ hi41 hi42)]
  dsimp only
  rw [spanReq_exact isDigitChar i4 _ hi41 hi42
    (head_false_append (fun c h => isRegexSpace_not_digit h) sp5 _ h51 h52)]
  dsimp only
  rw [spanReq_exact isRegexSpace sp5 rest h51 h52 hrest]
  dsimp only
  rw [hmatch]

theorem lineRegexFind_of_matchAt (l : List Char)
    (res : List Char × List Char × List Char) (hl : l ≠ [])
    (h : lineMatchAt l = some res) : lineRegexFind l = some res := by
  cases l with
  | nil => exact absurd rfl hl
  | cons c cs =>
    unfold lineRegexFind
    rw [h]

/-- C8 (amended): the Line Parser succeeds on every line of the shape:
permission string, then FOUR unsigned integer fields, then a timestamp
that is either `Mon D HH:MM` or `Mon D YYYY`, then the remainder of the
line as the name, whenever the permission and timestamp sub-fields pass
their own validation (the match is unanchored, so a line containing
such a shape after unmatched leading text may also parse); and every
failure is reported as `ParseError` with no partial entry returned. -/
theorem claimC8_lineScanner_amended :
    (∀ (now : GoTime)
       (perms sp1 i1 sp2 i2 sp3 i3 sp4 i4 sp5 mon spA day spB last sp6 name : List Char),
       perms ≠ [] → allChars isWordDash perms →
       specFieldSep sp1 → specIntField i1 →
       specFieldSep sp2 → specIntField i2 →
       specFieldSep sp3 → specIntField i3 →
       specFieldSep sp4 → specIntField i4 →
       specFieldSep sp5 →
       mon ≠ [] → allChars isWordChar mon →
       specFieldSep spA → specIntField day → specFieldSep spB →
       ((∃ hh mm, last = hh ++ ':' :: mm ∧ specIntField hh ∧ specIntField mm) ∨
         specIntField last) →
       specFieldSep sp6 →
       name ≠ [] → (∀ c, name.head? = some c → isRegexSpace c = false) →
       (∀ c ∈ name, c ≠ '\n') →
       ∀ (b : Bool), parsePermsToDirectoryFlag (String.mk perms) = .ok b →
       ∀ (tv : GoTime),
         parseDateStampToTime now (String.mk (mon ++ spA ++ day ++ spB ++ last)) = .ok tv →
       scanDropboxLineToFileEntry now
           (String.mk (perms ++ (sp1 ++ (i1 ++ (sp2 ++ (i2 ++ (sp3 ++ (i3 ++
             (sp4 ++ (i4 ++ (sp5 ++ (mon ++ (spA ++ (day ++ (spB ++
               (last ++ (sp6 ++ name)))))))))))))))))
         = .ok ⟨String.mk name, tv, b⟩) ∧
    (∀ (now : GoTime) (line : String) (e : GoError),
       scanDropboxLineToFileEntry now line = .error e → e = .errParseLine) := by
  constructor
  · intro now perms sp1 i1 sp2 i2 sp3 i3 sp4 i4 sp5 mon spA day spB last sp6 name
      hperm hpall h1 hi1 h2 hi2 h3 hi3 h4 hi4 h5 hmon hmonall hspA hday hspB hlast
      hsp6 hname hnh hnn b hb tv htv
    have hts := timeAndNameMatch_exact mon spA day spB last sp6 name
      hmon hmonall hspA hday hspB hlast hsp6 hname hnh hnn
    have hresthead : ∀ c,
        (mon ++ (spA ++ (day ++ (spB ++ (last ++ (sp6 ++ name)))))).head? = some c →
          isRegexSpace c = false :=
      head_false_append (fun c h => isWordChar_not_space h) mon _ hmon hmonall
    have hfind := lineMatchAt_exact perms sp1 i1 sp2 i2 sp3 i3 sp4 i4 sp5
      (mon ++ (spA ++ (day ++ (spB ++ (last ++ (sp6 ++ name))))))
      (mon ++ spA ++ day ++ spB ++ last) name
      hperm hpall h1 hi1 h2 hi2 h3 hi3 h4 hi4 h5 hresthead hts
    have hfind2 := lineRegexFind_of_matchAt _ _
      (by cases perms with
          | nil => exact absurd rfl hperm
          | cons x xt => simp) hfind
    unfold scanDropboxLineToFileEntry
    rw [show (String.mk (perms ++ (sp1 ++ (i1 ++ (sp2 ++ (i2 ++ (sp3 ++ (i3 ++
        (sp4 ++ (i4 ++ (sp5 ++ (mon ++ (spA ++ (day ++ (spB ++
          (last ++ (sp6 ++ name))))))))))))))))).data
        = perms ++ (sp1 ++ (i1 ++ (sp2 ++ (i2 ++ (sp3 ++ (i3 ++
        (sp4 ++ (i4 ++ (sp5 ++ (mon ++ (spA ++ (day ++ (spB ++
          (last ++ (sp6 ++ name))))))))))))))) from rfl]
    rw [hfind2]
    dsimp only
    rw [hb]
    dsimp only
    rw [htv]
  · intro now line e h
    unfold scanDropboxLineToFileEntry at h
    split at h
    · injection h with h2
      exact h2.symm
    next perms ts name hfind =>
      split at h
      · injection h with h2
        exact h2.symm
      next b hok =>
        split at h
        · injection h with h2
          exact h2.symm
        next tv htv => exact Except.noConfusion h

/-- C8 counterexample: the claim's shape demands only THREE integer
fields; this well-formed three-integer line (valid permissions, valid
timestamp) satisfies the claimed shape yet the scanner rejects it with
`ParseError`, because the regular expression requires four integer
fields. -/
theorem claimC8_counterexample :
    specLineShapeThreeInts wNow "drwxrwxrwx 0 0 0 Apr 6 2022 bogus_dir".data ∧
    scanDropboxLineToFileEntry wNow "drwxrwxrwx 0 0 0 Apr 6 2022 bogus_dir"
      = .error .errParseLine := by
  constructor
  · refine ⟨"drwxrwxrwx".data, [' '], ['0'], [' '], ['0'], [' '], ['0'], [' '],
      "Apr 6 2022".data, [' '], "bogus_dir".data, by decide, by decide, by decide,
      by decide, by decide, by decide, by decide, by decide, by decide,
      by decide, ?_, by decide, by decide, by decide, by decide⟩
    exact ⟨"Apr".data, [' '], ['6'], [' '], "2022".data, by decide, by decide,
      by decide, by decide, by decide, by decide, Or.inr (by decide)⟩
  · rfl

/-- C8 witness: the amended theorem applied to the repository's own
directory-listing example line. -/
theorem claimC8_witness :
    scanDropboxLineToFileEntry wNow
        "drwxrwxrwx   0 0     0             0 Apr  6  2022 bogus_dir"
      = .ok ⟨"bogus_dir", ⟨2022, 4, 6, 0, 0⟩, true⟩ := by
  have h := claimC8_lineScanner_amended.1 wNow
    "drwxrwxrwx".data "   ".data ['0'] [' '] ['0'] "     ".data ['0']
    "             ".data ['0'] [' '] "Apr".data "  ".data ['6'] "  ".data
    "2022".data [' '] "bogus_dir".data
    (by decide) (by decide) (by decide) (by decide)
    (by decide) (by decide) (by decide)
    (by decide) (by decide) (by decide)
    (by decide) (by decide) (by decide) (by decide)
    (by decide) (by decide)
    (Or.inr (by decide)) (by decide)
    (by decide)
    (by intro c hc
        simp only [List.head?_cons, Option.some.injEq] at hc
        rw [← hc]
        decide)
    (by decide)
    true rfl ⟨2022, 4, 6, 0, 0⟩ rfl
  exact h

end DropboxCleanup
